import Mathlib

/-!
Verification of the AlgoMirror standalone WebSocket service
(`websocket_service.py`) against its natural-language specification.

The embedding below translates the service's pure decision logic into Lean:
times of day are seconds since midnight (`Nat`, in `[0, 86400)`), dates are
day numbers since a Monday epoch (so `d % 7` is the Python `weekday()`,
`0 = Monday`), prices and quantities are rationals, and the database rows
touched by the service (positions, strategies, risk events) are explicit
structures threaded through the functions.
-/

namespace AlgoMirror

/-- Seconds in a day. -/
def daySecs : Nat := 86400

/-- One weekly recurring trading session row (`TradingSession`). -/
structure SessionR where
  day_of_week : Nat
  start_time : Nat
  end_time : Nat
  is_active : Bool
  deriving DecidableEq, Repr

/-- A market-holiday row (`MarketHoliday`); only the flag matters to the logic. -/
structure HolidayInfo where
  is_special_session : Bool
  deriving DecidableEq, Repr

/-- A special trading session row (`SpecialTradingSession`). -/
structure SpecialSessionR where
  start_time : Nat
  end_time : Nat
  deriving DecidableEq, Repr

/-- The cached trading-hours data held by the service
(`cached_sessions`, `cached_holidays`, `cached_special_sessions`). -/
structure CalendarCache where
  sessions : List SessionR
  holidays : List (Nat × HolidayInfo)
  specials : List (Nat × List SpecialSessionR)
  deriving DecidableEq, Repr

/-- Association-list lookup (models Python `dict` access). -/
def alookup {α : Type} (m : List (Nat × α)) (k : Nat) : Option α :=
  match m with
  | [] => none
  | (k', v) :: rest => if k' = k then some v else alookup rest k

/-- Special sessions stored for a date (empty when the date is absent). -/
def specialsFor (c : CalendarCache) (d : Nat) : List SpecialSessionR :=
  (alookup c.specials d).getD []

/-- The 15-minute pre-market buffer applied to a session start, as a time of
day: `(datetime.combine(date, start) - timedelta(minutes=15)).time()`, which
wraps around midnight. -/
def preMarket (start : Nat) : Nat :=
  (start + daySecs - 900) % daySecs

/-- The built-in default NSE calendar installed by `_set_default_cache`:
Monday through Friday 09:15-15:30, no holidays, no special sessions. -/
def defaultCache : CalendarCache :=
  { sessions := [⟨0, 33300, 55800, true⟩, ⟨1, 33300, 55800, true⟩,
                 ⟨2, 33300, 55800, true⟩, ⟨3, 33300, 55800, true⟩,
                 ⟨4, 33300, 55800, true⟩]
    holidays := []
    specials := [] }

/-- `is_trading_hours`, translated from the source: special sessions first
(buffered-start to end, inclusive), then a non-special holiday closes the
market, then the weekly sessions for the current weekday (buffered start to
end, inclusive).  An empty session cache is replaced by the default cache,
as `_set_default_cache` does. -/
def is_trading_hours (c0 : CalendarCache) (d t : Nat) : Bool :=
  let c := if c0.sessions.isEmpty then defaultCache else c0
  if (specialsFor c d).any
      (fun s => decide (preMarket s.start_time ≤ t) && decide (t ≤ s.end_time)) then
    true
  else
    match alookup c.holidays d with
    | some h =>
      if !h.is_special_session then false
      else c.sessions.any (fun s =>
        decide (s.day_of_week = d % 7) && s.is_active &&
        decide (preMarket s.start_time ≤ t) && decide (t ≤ s.end_time))
    | none => c.sessions.any (fun s =>
        decide (s.day_of_week = d % 7) && s.is_active &&
        decide (preMarket s.start_time ≤ t) && decide (t ≤ s.end_time))

/-- A special session window (buffered) containing `t` exists for date `d`. -/
def specialOpen (c : CalendarCache) (d t : Nat) : Bool :=
  (specialsFor c d).any
    (fun s => decide (preMarket s.start_time ≤ t) && decide (t ≤ s.end_time))

/-- Date `d` is a holiday that closes the market (`is_special_session = false`). -/
def closedHoliday (c : CalendarCache) (d : Nat) : Bool :=
  match alookup c.holidays d with
  | some h => !h.is_special_session
  | none => false

/-- An active weekly session for `d`'s weekday whose buffered window contains `t`. -/
def regularOpen (c : CalendarCache) (d t : Nat) : Bool :=
  c.sessions.any (fun s =>
    decide (s.day_of_week = d % 7) && s.is_active &&
    decide (preMarket s.start_time ≤ t) && decide (t ≤ s.end_time))

theorem is_trading_hours_order (c : CalendarCache) (d t : Nat)
    (h : c.sessions ≠ []) :
    is_trading_hours c d t =
      (if specialOpen c d t then true
       else if closedHoliday c d then false
       else regularOpen c d t) := by
  have hne : c.sessions.isEmpty = false := by
    cases hc : c.sessions with
    | nil => exact absurd hc h
    | cons a l => simp
  unfold is_trading_hours specialOpen closedHoliday regularOpen
  simp only [hne, if_false, Bool.false_eq_true]
  by_cases hs : (specialsFor c d).any
      (fun s => decide (preMarket s.start_time ≤ t) && decide (t ≤ s.end_time))
  · simp [hs]
  · simp only [hs, if_false, Bool.false_eq_true]
    cases hh : alookup c.holidays d with
    | none => simp
    | some hi =>
      by_cases hsp : hi.is_special_session <;> simp [hsp]

/-- The forward scan of `get_time_until_market_open` over the offsets
`range(1, 8)`: skip dates that are closing holidays, and return the seconds
from `now` to the buffered start of the first active session found for the
candidate weekday; `3600` when the whole horizon is exhausted. -/
def scanNextOpen (c : CalendarCache) (d t : Nat) : List Nat → Int
  | [] => 3600
  | i :: rest =>
    if closedHoliday c (d + i) then scanNextOpen c d t rest
    else
      match c.sessions.find? (fun s =>
          decide (s.day_of_week = (d % 7 + i) % 7) && s.is_active) with
      | some s =>
        ((d + i) * daySecs + preMarket s.start_time : Int) - (d * daySecs + t)
      | none => scanNextOpen c d t rest

/-- `get_time_until_market_open`, translated from the source.  The first
active session for today's weekday is examined: if its buffered start is
still ahead and today is not a closing holiday, the result is the seconds
until today's buffered open, rebuilt through `now.replace(hour, minute,
second=0)` (hence the zeroing of the seconds, `pre / 60 * 60`).  Otherwise
the scan over the next seven days runs.  An empty session cache is first
replaced by the default cache. -/
def get_time_until_market_open (c0 : CalendarCache) (d t : Nat) : Int :=
  let c := if c0.sessions.isEmpty then defaultCache else c0
  match c.sessions.find? (fun s =>
      decide (s.day_of_week = d % 7) && s.is_active) with
  | some s =>
    if t < preMarket s.start_time ∧ closedHoliday c d = false then
      ((preMarket s.start_time / 60 * 60 : Nat) : Int) - (t : Int)
    else scanNextOpen c d t [1, 2, 3, 4, 5, 6, 7]
  | none => scanNextOpen c d t [1, 2, 3, 4, 5, 6, 7]

/-- Specification-side definition: the forward scan of the spec's
`nextOpenAfter`, in the spec's words, with the buffered start written
directly as `start` minus 15 minutes. -/
def scanNextOpenSpec (c : CalendarCache) (d t : Nat) : List Nat → Int
  | [] => 3600
  | i :: rest =>
    if closedHoliday c (d + i) then scanNextOpenSpec c d t rest
    else
      match c.sessions.find? (fun s =>
          decide (s.day_of_week = (d % 7 + i) % 7) && s.is_active) with
      | some s =>
        ((d + i) * daySecs + s.start_time : Int) - 900 - (d * daySecs + t)
      | none => scanNextOpenSpec c d t rest

/-- Specification-side definition: `nextOpenAfter` as the spec states it
(the refinement target for `get_time_until_market_open`) — if today
has an active session whose buffered start (start minus 15 minutes) is still
in the future and today is not a closing holiday, the seconds until that
buffered start; otherwise scan forward up to 7 calendar days, skipping
closing holidays, returning the seconds until the first active session's
buffered start, and `3600` when no day within the horizon matches. -/
def nextOpenAfterSpec (c : CalendarCache) (d t : Nat) : Int :=
  match c.sessions.filter (fun s =>
      decide (s.day_of_week = d % 7) && s.is_active &&
      decide ((t : Int) < (s.start_time : Int) - 900)) with
  | s :: _ =>
    if closedHoliday c d = false then ((s.start_time : Int) - 900) - t
    else scanNextOpenSpec c d t [1, 2, 3, 4, 5, 6, 7]
  | [] => scanNextOpenSpec c d t [1, 2, 3, 4, 5, 6, 7]

/-- Sessions that start on a whole minute at least 15 minutes into the day
have their buffered start 900 seconds before the start. -/
theorem preMarket_eq {st : Nat} (h1 : 900 ≤ st) (h2 : st < 86400) :
    preMarket st = st - 900 := by
  unfold preMarket daySecs
  omega

/-- Bounds on every session start in a calendar cache: whole-minute starts
inside the day, at least 15 minutes after midnight (no wrap of the buffer). -/
def wellFormedStarts (c : CalendarCache) : Prop :=
  ∀ s ∈ c.sessions, 900 ≤ s.start_time ∧ s.start_time < 86400 ∧ s.start_time % 60 = 0

/-- No two active sessions share a weekday (the spec's one-window-per-weekday
data-model shape). -/
def oneSessionPerDay (c : CalendarCache) : Prop :=
  c.sessions.Pairwise (fun a b =>
    ¬(a.is_active = true ∧ b.is_active = true ∧ a.day_of_week = b.day_of_week))

theorem scanNextOpen_eq_spec (c : CalendarCache) (d t : Nat)
    (hb : wellFormedStarts c) :
    ∀ L, scanNextOpen c d t L = scanNextOpenSpec c d t L := by
  intro L
  induction L with
  | nil => rfl
  | cons i rest ih =>
    unfold scanNextOpen scanNextOpenSpec
    by_cases hh : closedHoliday c (d + i) = true
    · simpa [hh] using ih
    · simp only [hh, Bool.false_eq_true, if_false, if_neg]
      cases hf : c.sessions.find? (fun s =>
          decide (s.day_of_week = (d % 7 + i) % 7) && s.is_active) with
      | none => simpa [hf] using ih
      | some s =>
        have hm : s ∈ c.sessions := List.mem_of_find?_eq_some hf
        obtain ⟨hlo, hhi, _⟩ := hb s hm
        simp only [hf, preMarket_eq hlo hhi]
        push_cast [hlo]
        ring

/-- With at most one active session per weekday, the spec's filter for
today's future-start sessions is determined by the source's `find?` over
today's active sessions. -/
theorem filter_future_eq (t w : Nat) (l : List SessionR)
    (hpair : l.Pairwise (fun a b =>
      ¬(a.is_active = true ∧ b.is_active = true ∧ a.day_of_week = b.day_of_week))) :
    l.filter (fun s => decide (s.day_of_week = w) && s.is_active &&
        decide ((t : Int) < (s.start_time : Int) - 900))
    = (match l.find? (fun s => decide (s.day_of_week = w) && s.is_active) with
       | some s =>
         if (t : Int) < (s.start_time : Int) - 900 then [s] else []
       | none => []) := by
  induction l with
  | nil => rfl
  | cons x xs ih =>
    obtain ⟨hx, htail⟩ := List.pairwise_cons.mp hpair
    cases hpx : (decide (x.day_of_week = w) && x.is_active) with
    | true =>
      have hfind : List.find? (fun s =>
          decide (s.day_of_week = w) && s.is_active) (x :: xs) = some x := by
        simp [List.find?_cons, hpx]
      have hxd : x.day_of_week = w := by
        have := (Bool.and_eq_true _ _).mp hpx
        exact of_decide_eq_true this.1
      have hxa : x.is_active = true := ((Bool.and_eq_true _ _).mp hpx).2
      have hnil : xs.filter (fun s => decide (s.day_of_week = w) && s.is_active &&
          decide ((t : Int) < (s.start_time : Int) - 900)) = [] := by
        rw [List.filter_eq_nil_iff]
        intro y hy hcon
        have h1 := (Bool.and_eq_true _ _).mp hcon
        have h2 := (Bool.and_eq_true _ _).mp h1.1
        exact hx y hy ⟨hxa, h2.2, hxd.trans (of_decide_eq_true h2.1).symm⟩
      rw [hfind]
      by_cases hqx : (t : Int) < (x.start_time : Int) - 900
      · simp [List.filter_cons, hpx, hqx, hnil]
      · simp [List.filter_cons, hpx, hqx, hnil]
    | false =>
      have hfind : List.find? (fun s =>
          decide (s.day_of_week = w) && s.is_active) (x :: xs)
          = List.find? (fun s => decide (s.day_of_week = w) && s.is_active) xs := by
        simp [List.find?_cons, hpx]
      have hstep : (decide (x.day_of_week = w) && x.is_active &&
          decide ((t : Int) < (x.start_time : Int) - 900)) = false := by
        simp [hpx]
      rw [hfind]
      simp only [List.filter_cons, hstep, Bool.false_eq_true, if_false]
      exact ih htail

theorem get_time_until_market_open_eq_spec (c : CalendarCache)
    (hne : c.sessions ≠ []) (hone : oneSessionPerDay c)
    (hb : wellFormedStarts c) (d t : Nat) :
    get_time_until_market_open c d t = nextOpenAfterSpec c d t := by
  have hnemp : c.sessions.isEmpty = false := by
    cases hc : c.sessions with
    | nil => exact absurd hc hne
    | cons a l => simp
  unfold get_time_until_market_open nextOpenAfterSpec
  simp only [hnemp, Bool.false_eq_true, if_false]
  rw [filter_future_eq t (d % 7) c.sessions hone]
  cases hf : c.sessions.find? (fun s =>
      decide (s.day_of_week = d % 7) && s.is_active) with
  | none => simp only [scanNextOpen_eq_spec c d t hb]
  | some s =>
    have hm : s ∈ c.sessions := List.mem_of_find?_eq_some hf
    obtain ⟨hlo, hhi, hmin⟩ := hb s hm
    have hpre : preMarket s.start_time = s.start_time - 900 := preMarket_eq hlo hhi
    dsimp only
    by_cases hq : (t : Int) < (s.start_time : Int) - 900
    · have hq' : t < preMarket s.start_time := by rw [hpre]; omega
      rw [if_pos hq]
      dsimp only
      by_cases hch : closedHoliday c d = false
      · rw [if_pos ⟨hq', hch⟩, if_pos hch, hpre]
        have hzero : (s.start_time - 900) / 60 * 60 = s.start_time - 900 := by omega
        rw [hzero]
        push_cast [hlo]
        ring
      · rw [if_neg (fun hcon => hch hcon.2), if_neg hch,
          scanNextOpen_eq_spec c d t hb]
    · have hq' : ¬t < preMarket s.start_time := by rw [hpre]; omega
      rw [if_neg hq]
      dsimp only
      rw [if_neg (fun hcon => hq' hcon.1), scanNextOpen_eq_spec c d t hb]

/-- C5 (amended): under the built-in default calendar, `is_trading_hours` is
true on Tuesday 09:05, true on Tuesday 09:00 exactly (the buffered window
`[start - 15min, end]` is closed, so its left endpoint is open — this is the
amendment), false at any time on a Saturday, and false on a date flagged as
a non-special holiday at any time of day; and for any cache with a non-empty
session list the evaluation order is: special session window first, then
non-special holiday closure, then the weekday sessions. -/
theorem C5_isOpen_default_calendar :
    is_trading_hours defaultCache 1 32700 = true ∧
    is_trading_hours defaultCache 1 32400 = true ∧
    (∀ d t : Nat, d % 7 = 5 → is_trading_hours defaultCache d t = false) ∧
    (∀ d t : Nat,
      is_trading_hours
        { defaultCache with holidays := [(d, ⟨false⟩)] } d t = false) ∧
    (∀ c : CalendarCache, ∀ d t : Nat, c.sessions ≠ [] →
      is_trading_hours c d t =
        (if specialOpen c d t then true
         else if closedHoliday c d then false
         else regularOpen c d t)) := by
  refine ⟨by decide, by decide, ?_, ?_, ?_⟩
  · intro d t hd
    simp [is_trading_hours, defaultCache, specialsFor, alookup, hd]
  · intro d t
    simp [is_trading_hours, defaultCache, specialsFor, alookup]
  · intro c d t hne
    exact is_trading_hours_order c d t hne

/-- Witness for C5: the universally quantified parts of
`C5_isOpen_default_calendar` evaluated at concrete inputs (a Saturday noon,
a Wednesday holiday during session hours, and the Tuesday 09:05 instant). -/
theorem C5_isOpen_default_calendar_witness :
    is_trading_hours defaultCache 5 43200 = false ∧
    is_trading_hours
      { defaultCache with holidays := [(2, ⟨false⟩)] } 2 43200 = false ∧
    is_trading_hours defaultCache 1 32700 =
      (if specialOpen defaultCache 1 32700 then true
       else if closedHoliday defaultCache 1 then false
       else regularOpen defaultCache 1 32700) :=
  ⟨C5_isOpen_default_calendar.2.2.1 5 43200 (by decide),
   C5_isOpen_default_calendar.2.2.2.1 2 43200,
   C5_isOpen_default_calendar.2.2.2.2 defaultCache 1 32700 (by decide)⟩

/-- Counterexample for C5 as stated: the claim says `isOpen` is false on
Tuesday at 09:00, but the source's inclusive comparison
`pre_market <= current_time` makes the service open at exactly 09:00:00
(day 1 is a Tuesday of the Monday-epoch calendar, 32400 s = 09:00). -/
theorem C5_isOpen_at_0900_counterexample :
    is_trading_hours defaultCache 1 32400 = true := by decide

/-- C6: `get_time_until_market_open` agrees with the spec's `nextOpenAfter`
(seconds until today's buffered start when it is still ahead and today is
not a closing holiday, otherwise a scan of up to 7 days skipping closing
holidays, with the fixed 3600-second fallback) for every calendar cache with
a non-empty session list, at most one active session per weekday, and
whole-minute session starts at least 15 minutes into the day; and from
Friday 16:00 under the default calendar it returns the 234000 seconds to
Monday's buffered 09:00 open. -/
theorem C6_nextOpenAfter :
    (∀ c : CalendarCache, c.sessions ≠ [] → oneSessionPerDay c →
      wellFormedStarts c → ∀ d t : Nat,
      get_time_until_market_open c d t = nextOpenAfterSpec c d t) ∧
    get_time_until_market_open defaultCache 4 57600 = 234000 :=
  ⟨fun c h1 h2 h3 d t => get_time_until_market_open_eq_spec c h1 h2 h3 d t,
   by decide⟩

/-- Witness for C6: the equality of the source function and the spec
function instantiated on the default calendar at Friday 16:00. -/
theorem C6_nextOpenAfter_witness :
    get_time_until_market_open defaultCache 4 57600 =
      nextOpenAfterSpec defaultCache 4 57600 :=
  C6_nextOpenAfter.1 defaultCache (by decide)
    (by unfold oneSessionPerDay; decide) (by unfold wellFormedStarts; decide)
    4 57600

/-- A `StrategyExecution` row, with the fields the service reads or writes.
`status` is the raw string column (`entered`, `exit_pending`, `exited`,
`failed`). -/
structure Position where
  id : Nat
  strategy_id : Nat
  symbol : String
  exchange : Option String
  side : String
  quantity : Option ℚ
  entry_price : Option ℚ
  current_price : Option ℚ
  unrealized_pnl : Option ℚ
  status : String
  exit_reason : Option String
  exit_triggered_at : Option Int
  exit_pending_since : Option Int
  exit_attempt_count : Nat
  exit_broker_verified : Bool
  deriving DecidableEq, Repr

/-- The strategy fields the risk check reads. -/
structure Strategy where
  stop_loss : Option ℚ
  take_profit : Option ℚ
  deriving DecidableEq, Repr

/-- An appended `RiskEvent` audit row. -/
structure RiskEvent where
  strategy_id : Nat
  execution_id : Nat
  event_type : String
  trigger_value : Option ℚ
  action_taken : String
  created_at : Int
  deriving DecidableEq, Repr

/-- Python truthiness of a nullable numeric column: `None` and `0` are
falsy, everything else truthy. -/
def truthyQ : Option ℚ → Bool
  | none => false
  | some x => decide (x ≠ 0)

/-- `_trigger_exit`, translated from the source: append one `RiskEvent`
carrying the position's freshly persisted `unrealized_pnl`, then mark the
position with `exit_reason` and `exit_triggered_at` for the main app to
pick up.  Nothing else on the position changes here. -/
def trigger_exit (now : Int) (p : Position) (reason : String) :
    Position × RiskEvent :=
  ({ p with exit_reason := some reason, exit_triggered_at := some now },
   { strategy_id := p.strategy_id, execution_id := p.id, event_type := reason,
     trigger_value := p.unrealized_pnl, action_taken := "exit_triggered",
     created_at := now })

/-- The body of `_check_risk_triggers` for one selected position: only
`status = 'entered'` rows matching the tick's symbol are processed, a
missing strategy row skips the position, P&L is computed from the side,
`current_price`/`unrealized_pnl` are persisted, then stop-loss
(`pnl <= -abs(stop_loss)`) and take-profit (`pnl >= abs(take_profit)`) are
checked in that order against the same `pnl`. -/
def check_position_risk (lk : Nat → Option Strategy) (now : Int)
    (symbol : String) (ltp : ℚ) (p : Position) : Position × List RiskEvent :=
  if p.status = "entered" ∧ p.symbol = symbol then
    match lk p.strategy_id with
    | none => (p, [])
    | some strat =>
      let entry := p.entry_price.getD 0
      let qty := p.quantity.getD 0
      let pnl := if p.side = "BUY" then (ltp - entry) * qty
                 else (entry - ltp) * qty
      let p1 := { p with current_price := some ltp, unrealized_pnl := some pnl }
      let r1 := if truthyQ strat.stop_loss ∧ pnl ≤ -|strat.stop_loss.getD 0| then
                  (let e := trigger_exit now p1 "stop_loss"; (e.1, [e.2]))
                else (p1, ([] : List RiskEvent))
      if truthyQ strat.take_profit ∧ |strat.take_profit.getD 0| ≤ pnl then
        (let e := trigger_exit now r1.1 "take_profit"; (e.1, r1.2 ++ [e.2]))
      else r1
  else (p, [])

/-- `_check_risk_triggers` over the whole table: each position is processed
independently (each row's update is its own commit in the source). -/
def check_risk_triggers (lk : Nat → Option Strategy) (now : Int)
    (symbol : String) (ltp : ℚ) (ps : List Position) :
    List Position × List RiskEvent :=
  (ps.map (fun p => (check_position_risk lk now symbol ltp p).1),
   (ps.map (fun p => (check_position_risk lk now symbol ltp p).2)).flatten)

/-- Modelled from the spec: the Exit State Machine's `requestExit` — the
status transition performed by the main app / order_status_poller when it
picks up a position marked by `_trigger_exit`; that collaborator is part of
this repository but not among the source files here.  If the status is not
`entered` this is a no-op, otherwise the position moves to `exit_pending`
with `exit_pending_since = now`, `exit_reason = reason`,
`exit_attempt_count = 0`, `exit_broker_verified = false`. -/
def requestExit (now : Int) (p : Position) (reason : String) : Position :=
  if p.status ≠ "entered" then p
  else { p with
         status := "exit_pending"
         exit_pending_since := some now
         exit_reason := some reason
         exit_attempt_count := 0
         exit_broker_verified := false }

/-- The C1 scenario's position: BUY, entry 100, quantity 10, `entered`. -/
def c1Position : Position :=
  { id := 1, strategy_id := 7, symbol := "NIFTY", exchange := some "NFO",
    side := "BUY", quantity := some 10, entry_price := some 100,
    current_price := none, unrealized_pnl := none, status := "entered",
    exit_reason := none, exit_triggered_at := none, exit_pending_since := none,
    exit_attempt_count := 0, exit_broker_verified := false }

/-- The C1 scenario's strategy: stop-loss 500, no take-profit. -/
def c1Strategy : Strategy := { stop_loss := some 500, take_profit := none }

/-- Strategy lookup for the C1 scenario. -/
def c1Lookup : Nat → Option Strategy :=
  fun i => if i = 7 then some c1Strategy else none

/-- The C1 position after the tick at ltp 40: price and P&L persisted and
the exit marked by `_trigger_exit`. -/
def c1AfterTick : Position :=
  { c1Position with
    current_price := some 40
    unrealized_pnl := some (-600)
    exit_reason := some "stop_loss"
    exit_triggered_at := some 0 }

/-- The C1 position after the main app's pickup (`requestExit`). -/
def c1ExitPending : Position :=
  { c1AfterTick with
    status := "exit_pending"
    exit_pending_since := some 1
    exit_attempt_count := 0
    exit_broker_verified := false }

/-- C1: the BUY position with entry 100, quantity 10, stop-loss 500 on a
tick at ltp 40 has P&L -600, which crosses the stop-loss; the risk check
appends exactly one `RiskEvent` (event type `stop_loss`, trigger value
-600) and marks the position, and the Exit State Machine pickup
(`requestExit`, modelled from the spec) moves the position to
`exit_pending` with `exit_reason = stop_loss`, `exit_pending_since` set,
`exit_attempt_count = 0` and `exit_broker_verified = false`. -/
theorem C1_stop_loss_trigger :
    check_risk_triggers c1Lookup 0 "NIFTY" 40 [c1Position] =
      ([c1AfterTick],
       [{ strategy_id := 7, execution_id := 1, event_type := "stop_loss",
          trigger_value := some (-600), action_taken := "exit_triggered",
          created_at := 0 }]) ∧
    requestExit 1 c1AfterTick "stop_loss" = c1ExitPending ∧
    c1ExitPending.status = "exit_pending" ∧
    c1ExitPending.exit_reason = some "stop_loss" ∧
    c1ExitPending.exit_pending_since = some 1 ∧
    c1ExitPending.exit_attempt_count = 0 ∧
    c1ExitPending.exit_broker_verified = false := by
  refine ⟨?_, ?_, rfl, rfl, rfl, rfl, rfl⟩
  · norm_num [check_risk_triggers, check_position_risk, c1Lookup, c1Position,
      c1Strategy, truthyQ, trigger_exit, c1AfterTick]
  · norm_num [requestExit, c1AfterTick, c1Position, c1ExitPending]

/-- C2: a position whose status is not `entered` (in particular
`exit_pending`) is never selected by `_check_risk_triggers`: whatever the
tick, it is returned unchanged in every field and contributes no
`RiskEvent`. -/
theorem C2_non_entered_untouched (lk : Nat → Option Strategy) (now : Int)
    (sym : String) (ltp : ℚ) (p : Position) (h : p.status ≠ "entered") :
    check_position_risk lk now sym ltp p = (p, []) := by
  unfold check_position_risk
  rw [if_neg (fun hc => h hc.1)]

/-- Witness for C2: the C1 position already moved to `exit_pending`, hit by
a second tick that crosses the stop-loss threshold again, is untouched. -/
theorem C2_non_entered_untouched_witness :
    check_position_risk c1Lookup 2 "NIFTY" 30 c1ExitPending =
      (c1ExitPending, []) :=
  C2_non_entered_untouched c1Lookup 2 "NIFTY" 30 c1ExitPending (by decide)

/-- A strategy lookup with both thresholds negated in every row. -/
def negLookup (lk : Nat → Option Strategy) : Nat → Option Strategy :=
  fun i => (lk i).map (fun s =>
    { stop_loss := s.stop_loss.map (fun x => -x)
      take_profit := s.take_profit.map (fun x => -x) })

/-- Negating the configured thresholds changes nothing in the risk check:
both comparisons go through `abs`, and Python truthiness of a number is
also sign-blind. -/
theorem check_position_risk_neg (lk : Nat → Option Strategy) (now : Int)
    (sym : String) (ltp : ℚ) (p : Position) :
    check_position_risk (negLookup lk) now sym ltp p =
      check_position_risk lk now sym ltp p := by
  unfold check_position_risk negLookup
  cases hlk : lk p.strategy_id with
  | none => simp [hlk]
  | some st =>
    simp only [hlk]
    dsimp only [Option.map]
    cases hso : st.stop_loss <;> cases hto : st.take_profit <;>
      simp [truthyQ, abs_neg, neg_eq_zero]

/-- C3: for an `entered` position matching the tick, with both thresholds
configured non-zero, the stop-loss comparison `pnl <= -abs(stop_loss)` is
evaluated first and the take-profit comparison `pnl >= abs(take_profit)`
second, both against the same P&L; the two conditions are mutually
exclusive, so at most one `RiskEvent` is emitted, with the reason of the
first (and only) satisfied condition; and negating either configured
threshold does not change the outcome. -/
theorem C3_threshold_order_and_sign (lk : Nat → Option Strategy) (now : Int)
    (sym : String) (ltp : ℚ) (p : Position) (st : Strategy)
    (hst : p.status = "entered") (hsym : p.symbol = sym)
    (hlk : lk p.strategy_id = some st)
    (hsl : truthyQ st.stop_loss = true) (htp : truthyQ st.take_profit = true) :
    (let pnl := if p.side = "BUY" then (ltp - p.entry_price.getD 0) * p.quantity.getD 0
                else (p.entry_price.getD 0 - ltp) * p.quantity.getD 0
     ¬(pnl ≤ -|st.stop_loss.getD 0| ∧ |st.take_profit.getD 0| ≤ pnl) ∧
     (check_position_risk lk now sym ltp p).2 =
       (if pnl ≤ -|st.stop_loss.getD 0| then
          [{ strategy_id := p.strategy_id, execution_id := p.id,
             event_type := "stop_loss", trigger_value := some pnl,
             action_taken := "exit_triggered", created_at := now }]
        else if |st.take_profit.getD 0| ≤ pnl then
          [{ strategy_id := p.strategy_id, execution_id := p.id,
             event_type := "take_profit", trigger_value := some pnl,
             action_taken := "exit_triggered", created_at := now }]
        else [])) ∧
    check_position_risk (negLookup lk) now sym ltp p =
      check_position_risk lk now sym ltp p := by
  have hslv : st.stop_loss.getD 0 ≠ 0 := by
    cases hso : st.stop_loss with
    | none => rw [hso] at hsl; exact absurd hsl (by simp [truthyQ])
    | some x =>
      rw [hso] at hsl
      simpa [truthyQ] using of_decide_eq_true hsl
  have htpv : st.take_profit.getD 0 ≠ 0 := by
    cases hto : st.take_profit with
    | none => rw [hto] at htp; exact absurd htp (by simp [truthyQ])
    | some x =>
      rw [hto] at htp
      simpa [truthyQ] using of_decide_eq_true htp
  refine ⟨⟨?_, ?_⟩, check_position_risk_neg lk now sym ltp p⟩
  · intro hcon
    have h1 : (0 : ℚ) < |st.stop_loss.getD 0| := abs_pos.mpr hslv
    have h2 : (0 : ℚ) < |st.take_profit.getD 0| := abs_pos.mpr htpv
    have := hcon.1
    have := hcon.2
    linarith
  · unfold check_position_risk
    rw [if_pos ⟨hst, hsym⟩, hlk]
    dsimp only
    by_cases hA : (if p.side = "BUY" then (ltp - p.entry_price.getD 0) * p.quantity.getD 0
        else (p.entry_price.getD 0 - ltp) * p.quantity.getD 0) ≤ -|st.stop_loss.getD 0|
    · have hB : ¬|st.take_profit.getD 0| ≤
          (if p.side = "BUY" then (ltp - p.entry_price.getD 0) * p.quantity.getD 0
           else (p.entry_price.getD 0 - ltp) * p.quantity.getD 0) := by
        have h1 : (0 : ℚ) < |st.stop_loss.getD 0| := abs_pos.mpr hslv
        have h2 : (0 : ℚ) < |st.take_profit.getD 0| := abs_pos.mpr htpv
        intro hc
        linarith
      rw [if_neg (fun hc => hB hc.2), if_pos ⟨hsl, hA⟩, if_pos hA]
      simp [trigger_exit]
    · by_cases hB : |st.take_profit.getD 0| ≤
          (if p.side = "BUY" then (ltp - p.entry_price.getD 0) * p.quantity.getD 0
           else (p.entry_price.getD 0 - ltp) * p.quantity.getD 0)
      · rw [if_pos ⟨htp, hB⟩, if_neg (fun hc => hA hc.2), if_neg hA, if_pos hB]
        simp [trigger_exit]
      · rw [if_neg (fun hc => hB hc.2), if_neg (fun hc => hA hc.2),
          if_neg hA, if_neg hB]

/-- Witness for C3 at a concrete input: BUY entry 100 qty 10, stop-loss
500, take-profit 300, tick at 120 → pnl 200, no threshold crossed, and the
sign-flipped thresholds give the same result. -/
theorem C3_threshold_order_and_sign_witness :
    (¬((if c1Position.side = "BUY"
          then ((120 : ℚ) - c1Position.entry_price.getD 0) * c1Position.quantity.getD 0
          else (c1Position.entry_price.getD 0 - 120) * c1Position.quantity.getD 0) ≤
            -|(Strategy.mk (some 500) (some 300)).stop_loss.getD 0| ∧
       |(Strategy.mk (some 500) (some 300)).take_profit.getD 0| ≤
         (if c1Position.side = "BUY"
          then ((120 : ℚ) - c1Position.entry_price.getD 0) * c1Position.quantity.getD 0
          else (c1Position.entry_price.getD 0 - 120) * c1Position.quantity.getD 0)) ∧
     (check_position_risk (fun _ => some (Strategy.mk (some 500) (some 300)))
        5 "NIFTY" 120 c1Position).2 =
       (if (if c1Position.side = "BUY"
            then ((120 : ℚ) - c1Position.entry_price.getD 0) * c1Position.quantity.getD 0
            else (c1Position.entry_price.getD 0 - 120) * c1Position.quantity.getD 0) ≤
              -|(Strategy.mk (some 500) (some 300)).stop_loss.getD 0| then
          [{ strategy_id := c1Position.strategy_id, execution_id := c1Position.id,
             event_type := "stop_loss",
             trigger_value := some (if c1Position.side = "BUY"
               then ((120 : ℚ) - c1Position.entry_price.getD 0) * c1Position.quantity.getD 0
               else (c1Position.entry_price.getD 0 - 120) * c1Position.quantity.getD 0),
             action_taken := "exit_triggered", created_at := 5 }]
        else if |(Strategy.mk (some 500) (some 300)).take_profit.getD 0| ≤
            (if c1Position.side = "BUY"
             then ((120 : ℚ) - c1Position.entry_price.getD 0) * c1Position.quantity.getD 0
             else (c1Position.entry_price.getD 0 - 120) * c1Position.quantity.getD 0) then
          [{ strategy_id := c1Position.strategy_id, execution_id := c1Position.id,
             event_type := "take_profit",
             trigger_value := some (if c1Position.side = "BUY"
               then ((120 : ℚ) - c1Position.entry_price.getD 0) * c1Position.quantity.getD 0
               else (c1Position.entry_price.getD 0 - 120) * c1Position.quantity.getD 0),
             action_taken := "exit_triggered", created_at := 5 }]
        else [])) ∧
    check_position_risk (negLookup (fun _ => some (Strategy.mk (some 500) (some 300))))
        5 "NIFTY" 120 c1Position =
      check_position_risk (fun _ => some (Strategy.mk (some 500) (some 300)))
        5 "NIFTY" 120 c1Position :=
  C3_threshold_order_and_sign (fun _ => some (Strategy.mk (some 500) (some 300)))
    5 "NIFTY" 120 c1Position (Strategy.mk (some 500) (some 300))
    (by decide) (by decide) rfl (by decide) (by decide)

/-- C4: for every selected position (status `entered`, matching symbol,
strategy row present, entry price and quantity populated), P&L is
`(ltp - entry) * qty` for BUY and `(entry - ltp) * qty` otherwise, and the
position comes back with `current_price = ltp` and `unrealized_pnl = pnl`
whether or not any threshold fired. -/
theorem C4_pnl_persisted_unconditionally (lk : Nat → Option Strategy)
    (now : Int) (sym : String) (ltp e q : ℚ) (p : Position) (st : Strategy)
    (hst : p.status = "entered") (hsym : p.symbol = sym)
    (hlk : lk p.strategy_id = some st)
    (he : p.entry_price = some e) (hq : p.quantity = some q) :
    ((check_position_risk lk now sym ltp p).1).current_price = some ltp ∧
    ((check_position_risk lk now sym ltp p).1).unrealized_pnl =
      some (if p.side = "BUY" then (ltp - e) * q else (e - ltp) * q) := by
  unfold check_position_risk
  rw [if_pos ⟨hst, hsym⟩, hlk]
  dsimp only
  rw [he, hq]
  dsimp only [Option.getD_some]
  constructor <;>
    (split_ifs <;> simp [trigger_exit])

/-- Witness for C4: the C1 scenario evaluated concretely — the stop-loss
fires, and the price and P&L fields are persisted all the same. -/
theorem C4_pnl_persisted_unconditionally_witness :
    ((check_position_risk c1Lookup 0 "NIFTY" 40 c1Position).1).current_price =
      some 40 ∧
    ((check_position_risk c1Lookup 0 "NIFTY" 40 c1Position).1).unrealized_pnl =
      some (if c1Position.side = "BUY" then ((40 : ℚ) - 100) * 10
            else ((100 : ℚ) - 40) * 10) :=
  C4_pnl_persisted_unconditionally c1Lookup 0 "NIFTY" 40 100 10 c1Position
    c1Strategy (by decide) (by decide) rfl (by decide) (by decide)

/-- The fixed backoff schedule of `_reconnect`. -/
def backoffDelays : List Nat := [2, 4, 8, 16, 30, 60]

/-- The observable outcome of one `_reconnect` invocation: the sleeps
performed (in order), the number of `connect()` attempts made, and whether
one succeeded. -/
structure ReconnectRun where
  sleeps : List Nat
  attempts : Nat
  success : Bool
  deriving DecidableEq, Repr

/-- The loop body of `_reconnect`, translated from the source: for each
delay, first check the shutdown flag (return silently), then sleep the
delay, then call `connect()` (attempt `i`); return on the first success.
`connect i` is the outcome of the i-th attempt, `shutdown i` the flag as
observed before the i-th sleep. -/
def reconnectAux (connect shutdown : Nat → Bool) :
    List Nat → Nat → ReconnectRun
  | [], _ => ⟨[], 0, false⟩
  | dl :: rest, i =>
    if shutdown i then ⟨[], 0, false⟩
    else if connect i then ⟨[dl], 1, true⟩
    else
      let r := reconnectAux connect shutdown rest (i + 1)
      ⟨dl :: r.sleeps, r.attempts + 1, r.success⟩

/-- `_reconnect`: one full invocation over the fixed schedule.  The
function owns no state across invocations — the schedule restarts at `2`
on every call. -/
def reconnect (connect shutdown : Nat → Bool) : ReconnectRun :=
  reconnectAux connect shutdown backoffDelays 0

theorem reconnectAux_take (connect shutdown : Nat → Bool)
    (hs : ∀ i, shutdown i = false) :
    ∀ L i, (reconnectAux connect shutdown L i).attempts ≤ L.length ∧
      (reconnectAux connect shutdown L i).sleeps =
        L.take (reconnectAux connect shutdown L i).attempts := by
  intro L
  induction L with
  | nil => intro i; exact ⟨le_refl 0, rfl⟩
  | cons dl rest ih =>
    intro i
    unfold reconnectAux
    rw [hs i]
    by_cases hc : connect i = true
    · simp [hc]
    · have hc' : connect i = false := Bool.eq_false_iff.mpr hc
      simp only [hc', Bool.false_eq_true, if_false]
      obtain ⟨h1, h2⟩ := ih (i + 1)
      refine ⟨by simpa using Nat.succ_le_succ h1, ?_⟩
      simpa [List.take_succ_cons] using h2

theorem reconnectAux_all_fail (connect shutdown : Nat → Bool)
    (hs : ∀ i, shutdown i = false) :
    ∀ L i, (∀ j, j < L.length → connect (i + j) = false) →
      reconnectAux connect shutdown L i = ⟨L, L.length, false⟩ := by
  intro L
  induction L with
  | nil => intro i _; rfl
  | cons dl rest ih =>
    intro i hfail
    unfold reconnectAux
    rw [hs i]
    have h0 : connect i = false := by simpa using hfail 0 (by simp)
    simp only [h0, Bool.false_eq_true, if_false]
    have := ih (i + 1) (fun j hj => by
      have := hfail (j + 1) (by simpa using Nat.succ_lt_succ hj)
      simpa [Nat.add_assoc, Nat.add_comm 1 j] using this)
    rw [this]
    simp

theorem reconnectAux_first_success (connect shutdown : Nat → Bool)
    (hs : ∀ i, shutdown i = false) :
    ∀ L i k, k < L.length → connect (i + k) = true →
      (∀ j, j < k → connect (i + j) = false) →
      reconnectAux connect shutdown L i =
        ⟨L.take (k + 1), k + 1, true⟩ := by
  intro L
  induction L with
  | nil => intro i k hk; exact absurd hk (by simp)
  | cons dl rest ih =>
    intro i k hk hsucc hbefore
    unfold reconnectAux
    rw [hs i]
    cases k with
    | zero =>
      simp only [Nat.add_zero] at hsucc
      simp [hsucc]
    | succ k' =>
      have h0 : connect i = false := by simpa using hbefore 0 (Nat.succ_pos k')
      simp only [h0, Bool.false_eq_true, if_false]
      have hrec := ih (i + 1) k' (by simpa using Nat.lt_of_succ_lt_succ hk)
        (by simpa [Nat.add_assoc, Nat.add_comm 1 k'] using hsucc)
        (fun j hj => by
          have := hbefore (j + 1) (Nat.succ_lt_succ hj)
          simpa [Nat.add_assoc, Nat.add_comm 1 j] using this)
      rw [hrec]
      simp

/-- C7: during trading hours (no shutdown), one `_reconnect` invocation
makes at most six attempts; it sleeps exactly the prefix `[2,4,8,16,30,60]`
corresponding to the attempts it makes; if the first success is attempt `k`
(0-based, `k < 6`) it stops immediately after `k + 1` attempts; and if all
six attempts fail it performs exactly the six delays in order, reports
failure, and makes no further attempts (the invocation returns).  Each
invocation restarts the schedule, which is the reset on a future drop. -/
theorem C7_reconnect_backoff (connect shutdown : Nat → Bool)
    (hs : ∀ i, shutdown i = false) :
    (reconnect connect shutdown).attempts ≤ 6 ∧
    (reconnect connect shutdown).sleeps =
      backoffDelays.take (reconnect connect shutdown).attempts ∧
    (∀ k, k < 6 → connect k = true → (∀ j, j < k → connect j = false) →
      reconnect connect shutdown =
        ⟨backoffDelays.take (k + 1), k + 1, true⟩) ∧
    ((∀ j, j < 6 → connect j = false) →
      reconnect connect shutdown = ⟨[2, 4, 8, 16, 30, 60], 6, false⟩) := by
  obtain ⟨h1, h2⟩ := reconnectAux_take connect shutdown hs backoffDelays 0
  refine ⟨h1, h2, ?_, ?_⟩
  · intro k hk hsucc hbefore
    exact reconnectAux_first_success connect shutdown hs backoffDelays 0 k hk
      (by simpa using hsucc) (fun j hj => by simpa using hbefore j hj)
  · intro hfail
    exact reconnectAux_all_fail connect shutdown hs backoffDelays 0
      (fun j hj => by simpa using hfail j (by simpa using hj))

/-- Witness for C7: with every attempt failing and no shutdown, the six
delays run in order and the run reports failure after exactly six
attempts. -/
theorem C7_reconnect_backoff_witness :
    reconnect (fun _ => false) (fun _ => false) =
      ⟨[2, 4, 8, 16, 30, 60], 6, false⟩ :=
  (C7_reconnect_backoff (fun _ => false) (fun _ => false)
    (fun _ => rfl)).2.2.2 (fun _ _ => rfl)

/-- A `TradingAccount` row, with the fields `load_config_from_db` reads. -/
structure TradingAccount where
  account_name : String
  is_primary : Bool
  websocket_url : Option String
  api_key : Option String
  deriving DecidableEq, Repr

/-- `load_config_from_db`, translated from the source: take the first
account flagged primary; failing that, the first account whose websocket
URL is non-null and non-empty; yield its feed URL and API key, or `none`
when no account matches (the source returns `False`). -/
def load_config_from_db (accounts : List TradingAccount) :
    Option (Option String × Option String) :=
  match accounts.find? (fun a => a.is_primary) with
  | some a => some (a.websocket_url, a.api_key)
  | none =>
    match accounts.find? (fun a =>
        decide (a.websocket_url ≠ none) && decide (a.websocket_url ≠ some "")) with
    | some a => some (a.websocket_url, a.api_key)
    | none => none

/-- How `run` ends its startup phase. -/
inductive StartupResult where
  | proceed (ws_url api_key : Option String)
  | exitEarly (reported : Bool) (exitCode : Nat)
  deriving DecidableEq, Repr

/-- The startup phase of `run`, translated from the source: when
`load_config_from_db` fails, the error is logged (`reported = true`) and
`run` returns; `main` then falls off its end, so the interpreter exits the
process with status 0. -/
def service_startup (accounts : List TradingAccount) : StartupResult :=
  match load_config_from_db accounts with
  | some (u, k) => .proceed u k
  | none => .exitEarly true 0

/-- The process exit status produced by a startup result, when it exits. -/
def exitCodeOf : StartupResult → Option Nat
  | .proceed _ _ => none
  | .exitEarly _ code => some code

/-- Counterexample for C9 as stated: with no usable account the startup
failure path is taken and reported, but the process exit code is 0 — not
the non-zero code the claim asserts. -/
theorem C9_exit_code_counterexample :
    service_startup [] = .exitEarly true 0 ∧
    exitCodeOf (service_startup []) = some 0 := by
  exact ⟨rfl, rfl⟩

/-- C9 (amended): account selection takes the record flagged primary, else
the first account with a non-empty feed URL; when neither exists, startup
fails hard — the failure is reported to the operator and the service's
`run` returns so the process exits, but with exit code 0 rather than a
non-zero code. -/
theorem C9_account_selection_and_startup :
    (∀ accounts : List TradingAccount, ∀ a : TradingAccount,
      accounts.find? (fun x => x.is_primary) = some a →
      load_config_from_db accounts = some (a.websocket_url, a.api_key)) ∧
    (∀ accounts : List TradingAccount,
      accounts.find? (fun x => x.is_primary) = none →
      load_config_from_db accounts =
        (accounts.find? (fun x =>
          decide (x.websocket_url ≠ none) &&
          decide (x.websocket_url ≠ some ""))).map
            (fun a => (a.websocket_url, a.api_key))) ∧
    (∀ accounts : List TradingAccount,
      load_config_from_db accounts = none →
      service_startup accounts = .exitEarly true 0 ∧
      exitCodeOf (service_startup accounts) = some 0) := by
  refine ⟨?_, ?_, ?_⟩
  · intro accounts a h
    unfold load_config_from_db
    rw [h]
  · intro accounts h
    unfold load_config_from_db
    rw [h]
    cases accounts.find? (fun x =>
        decide (x.websocket_url ≠ none) && decide (x.websocket_url ≠ some "")) <;>
      rfl
  · intro accounts h
    unfold service_startup
    rw [h]
    exact ⟨rfl, rfl⟩

/-- Witness for C9: a primary account is selected even when listed second;
a configuration with no usable account reports and exits with code 0. -/
theorem C9_account_selection_and_startup_witness :
    load_config_from_db
      [⟨"a", false, none, none⟩, ⟨"b", true, some "ws://x", some "k"⟩] =
      some (some "ws://x", some "k") ∧
    service_startup [⟨"a", false, none, none⟩] = .exitEarly true 0 :=
  ⟨C9_account_selection_and_startup.1
      [⟨"a", false, none, none⟩, ⟨"b", true, some "ws://x", some "k"⟩]
      ⟨"b", true, some "ws://x", some "k"⟩ (by decide),
   (C9_account_selection_and_startup.2.2 [⟨"a", false, none, none⟩]
      (by decide)).1⟩

/-- One stored tick in `latest_prices` (the direct message format stores no
OHLC fields, modelled as `none`). -/
structure PriceEntry where
  ltp : ℚ
  timestamp : Int
  open_px : Option ℚ
  high : Option ℚ
  low : Option ℚ
  volume : Option ℚ
  deriving DecidableEq, Repr

/-- The JSON document `_save_prices` writes to the shared file. -/
structure SharedDoc where
  prices : List (String × PriceEntry)
  updated_at : Int
  subscriptions : List String
  deriving DecidableEq, Repr

/-- The flat tick fields a JSON object can carry. -/
structure JFlat where
  symbol : Option String
  ltp : Option ℚ
  open_px : Option ℚ
  high : Option ℚ
  low : Option ℚ
  volume : Option ℚ
  deriving DecidableEq, Repr

/-- An inbound JSON message: optional `type`/`status` strings, its own flat
tick fields, and an optional nested `data` object. -/
structure JMsg where
  type_tag : Option String
  status : Option String
  flat : JFlat
  data : Option JFlat
  deriving DecidableEq, Repr

/-- The in-memory service state touched by `_on_message`, together with the
externally visible shared document and database rows. -/
structure ServiceState where
  authenticated : Bool
  subscriptions : List String
  latest_prices : List (String × PriceEntry)
  sharedDoc : Option SharedDoc
  positions : List Position
  events : List RiskEvent
  deriving DecidableEq, Repr

/-- Python-dict assignment on the price map: replace in place when the key
exists, append otherwise (keys stay unique, insertion order preserved). -/
def supsert (m : List (String × PriceEntry)) (k : String) (v : PriceEntry) :
    List (String × PriceEntry) :=
  match m with
  | [] => [(k, v)]
  | (k', v') :: rest =>
    if k' = k then (k, v) :: rest else (k', v') :: supsert rest k v

/-- Python-dict lookup on the price map. -/
def slookup (m : List (String × PriceEntry)) (k : String) : Option PriceEntry :=
  match m with
  | [] => none
  | (k', v) :: rest => if k' = k then some v else slookup rest k

/-- Python truthiness of an optional string: `None` and `''` are falsy. -/
def truthyS : Option String → Bool
  | none => false
  | some s => decide (s ≠ "")

/-- Python `a or b` over two optional strings (the symbol fallback chain in
the `market_data` branch). -/
def strOr (a b : Option String) : Option String :=
  if truthyS a then a else b

/-- Python set-add on the subscription list. -/
def insertSub (l : List String) (x : String) : List String :=
  if l.any (fun y => y = x) then l else l ++ [x]

/-- The exchange of an open position, `exec.exchange or 'NFO'`. -/
def exchOr : Option String → String
  | none => "NFO"
  | some s => if s = "" then "NFO" else s

/-- `_subscribe_to_positions`, translated from the source: every `entered`
position with a truthy symbol is subscribed as `EXCH:SYM` (a set add);
nothing else in the state changes and nothing is published. -/
def subscribe_to_positions (st : ServiceState) : ServiceState :=
  { st with subscriptions := st.positions.foldl (fun acc p =>
      if p.status = "entered" ∧ p.symbol ≠ "" then
        insertSub acc (exchOr p.exchange ++ ":" ++ p.symbol)
      else acc) st.subscriptions }

/-- `_save_prices`, translated from the source: overwrite the shared file
with the full price map, a fresh timestamp, and the subscription list. -/
def save_prices (now : Int) (st : ServiceState) : ServiceState :=
  { st with sharedDoc := some ⟨st.latest_prices, now, st.subscriptions⟩ }

/-- The `_check_risk_triggers` call made from the tick path, applied to the
position table in the state. -/
def risk_step (lk : Nat → Option Strategy) (now : Int) (sym : String)
    (ltp : ℚ) (st : ServiceState) : ServiceState :=
  { st with
    positions := (check_risk_triggers lk now sym ltp st.positions).1
    events := st.events ++ (check_risk_triggers lk now sym ltp st.positions).2 }

/-- `_on_message`, translated from the source.  `none` stands for a message
that is not valid JSON (the `JSONDecodeError` handler logs and returns, as
does the catch-all handler, so nothing escapes).  An `auth`/`success`
message flips `authenticated` and re-subscribes; a `subscribe` response is
ignored; a `market_data` message takes its tick fields from `data` (falling
back to the whole object), the symbol falling back to the top level; any
other message carrying a non-null `ltp` is the direct flat format.  A tick
is accepted only when both symbol and ltp are truthy; acceptance stores the
tick under the bare symbol key, publishes the snapshot, and runs the risk
check. -/
def on_message (lk : Nat → Option Strategy) (now : Int) (st : ServiceState) :
    Option JMsg → ServiceState
  | none => st
  | some m =>
    if m.type_tag = some "auth" then
      if m.status = some "success" then
        subscribe_to_positions { st with authenticated := true }
      else st
    else if m.type_tag = some "subscribe" then st
    else if m.type_tag = some "market_data" then
      let md := m.data.getD m.flat
      let sym := strOr md.symbol m.flat.symbol
      if truthyS sym = true ∧ truthyQ md.ltp = true then
        risk_step lk now (sym.getD "") (md.ltp.getD 0) (save_prices now
          { st with latest_prices :=
                      supsert st.latest_prices (sym.getD "")
                        ⟨md.ltp.getD 0, now, md.open_px, md.high, md.low,
                          md.volume⟩ })
      else st
    else if m.flat.ltp ≠ none then
      if truthyS m.flat.symbol = true ∧ truthyQ m.flat.ltp = true then
        risk_step lk now (m.flat.symbol.getD "") (m.flat.ltp.getD 0)
          (save_prices now
            { st with latest_prices :=
                        supsert st.latest_prices (m.flat.symbol.getD "")
                          ⟨m.flat.ltp.getD 0, now, none, none, none, none⟩ })
      else st
    else st

/-- The effective tick symbol of a message, following the branch it would
take in `_on_message`. -/
def msgSymbol (m : JMsg) : Option String :=
  if m.type_tag = some "market_data" then
    strOr (m.data.getD m.flat).symbol m.flat.symbol
  else m.flat.symbol

/-- The effective tick ltp of a message. -/
def msgLtp (m : JMsg) : Option ℚ :=
  if m.type_tag = some "market_data" then (m.data.getD m.flat).ltp
  else m.flat.ltp

/-- A message that reaches one of the two tick-update branches with a
truthy symbol and a truthy ltp. -/
def acceptedTick (m : JMsg) : Prop :=
  (m.type_tag = some "market_data" ∧ truthyS (msgSymbol m) = true ∧
    truthyQ (msgLtp m) = true) ∨
  (m.type_tag ≠ some "auth" ∧ m.type_tag ≠ some "subscribe" ∧
    m.type_tag ≠ some "market_data" ∧ m.flat.ltp ≠ none ∧
    truthyS m.flat.symbol = true ∧ truthyQ m.flat.ltp = true)

/-- The service state right after construction. -/
def emptyState : ServiceState :=
  { authenticated := false, subscriptions := [], latest_prices := [],
    sharedDoc := none, positions := [], events := [] }

/-- C10: an inbound message that is not valid JSON (`none`), or whose
effective symbol is missing or empty, or whose effective ltp is absent or
zero, changes nothing: the latest-price map, the published shared document
and the position table come back exactly as they were (and the handler, a
total function here because both source `except` arms merely log, returns
normally). -/
theorem C10_bad_message_no_change (lk : Nat → Option Strategy) (now : Int)
    (st : ServiceState) (msg : Option JMsg)
    (h : msg = none ∨ ∃ m, msg = some m ∧
      (truthyS (msgSymbol m) = false ∨ truthyQ (msgLtp m) = false)) :
    (on_message lk now st msg).latest_prices = st.latest_prices ∧
    (on_message lk now st msg).sharedDoc = st.sharedDoc ∧
    (on_message lk now st msg).positions = st.positions := by
  rcases h with h | ⟨m, rfl, hbad⟩
  · subst h
    exact ⟨rfl, rfl, rfl⟩
  · unfold on_message
    dsimp only
    by_cases h1 : m.type_tag = some "auth"
    · rw [if_pos h1]
      by_cases h2 : m.status = some "success"
      · rw [if_pos h2]
        exact ⟨rfl, rfl, rfl⟩
      · rw [if_neg h2]
        exact ⟨rfl, rfl, rfl⟩
    · rw [if_neg h1]
      by_cases h3 : m.type_tag = some "subscribe"
      · rw [if_pos h3]
        exact ⟨rfl, rfl, rfl⟩
      · rw [if_neg h3]
        by_cases h4 : m.type_tag = some "market_data"
        · rw [if_pos h4]
          have hbad' : ¬(truthyS (strOr (m.data.getD m.flat).symbol
              m.flat.symbol) = true ∧
              truthyQ (m.data.getD m.flat).ltp = true) := by
            intro hc
            rcases hbad with hb | hb
            · rw [msgSymbol, if_pos h4] at hb
              rw [hc.1] at hb
              cases hb
            · rw [msgLtp, if_pos h4] at hb
              rw [hc.2] at hb
              cases hb
          rw [if_neg hbad']
          exact ⟨rfl, rfl, rfl⟩
        · rw [if_neg h4]
          by_cases h5 : m.flat.ltp ≠ none
          · rw [if_pos h5]
            have hbad' : ¬(truthyS m.flat.symbol = true ∧
                truthyQ m.flat.ltp = true) := by
              intro hc
              rcases hbad with hb | hb
              · rw [msgSymbol, if_neg h4] at hb
                rw [hc.1] at hb
                cases hb
              · rw [msgLtp, if_neg h4] at hb
                rw [hc.2] at hb
                cases hb
            rw [if_neg hbad']
            exact ⟨rfl, rfl, rfl⟩
          · rw [if_neg h5]
            exact ⟨rfl, rfl, rfl⟩

/-- A flat-format message whose ltp is present but zero. -/
def zeroLtpMsg : JMsg :=
  { type_tag := none, status := none,
    flat := ⟨some "NIFTY", some 0, none, none, none, none⟩, data := none }

/-- Witness for C10: the zero-ltp flat message leaves the fresh state's
price map, shared document and positions untouched. -/
theorem C10_bad_message_no_change_witness :
    (on_message (fun _ => none) 5 emptyState (some zeroLtpMsg)).latest_prices =
      emptyState.latest_prices ∧
    (on_message (fun _ => none) 5 emptyState (some zeroLtpMsg)).sharedDoc =
      emptyState.sharedDoc ∧
    (on_message (fun _ => none) 5 emptyState (some zeroLtpMsg)).positions =
      emptyState.positions :=
  C10_bad_message_no_change (fun _ => none) 5 emptyState (some zeroLtpMsg)
    (Or.inr ⟨zeroLtpMsg, rfl, Or.inr (by decide)⟩)

theorem supsert_keys_notmem (k : String) (v : PriceEntry) :
    ∀ m : List (String × PriceEntry), k ∉ m.map Prod.fst →
      (supsert m k v).map Prod.fst = m.map Prod.fst ++ [k] := by
  intro m
  induction m with
  | nil => intro _; rfl
  | cons x rest ih =>
    intro h
    have hne : x.1 ≠ k := by
      intro hc
      exact h (by simp [hc])
    have hrest : k ∉ rest.map Prod.fst := fun hc => h (by simp [hc])
    cases x with
    | mk k' v' =>
      simp only [supsert, if_neg hne, List.map_cons, List.cons_append,
        List.cons.injEq, true_and]
      exact ih hrest

theorem slookup_supsert_self (k : String) (v : PriceEntry) :
    ∀ m : List (String × PriceEntry), slookup (supsert m k v) k = some v := by
  intro m
  induction m with
  | nil => simp [supsert, slookup]
  | cons x rest ih =>
    cases x with
    | mk k' v' =>
      by_cases hk : k' = k
      · simp [supsert, hk, slookup]
      · simp [supsert, hk, slookup, ih]

theorem slookup_supsert_ne (k j : String) (v : PriceEntry) (hne : j ≠ k) :
    ∀ m : List (String × PriceEntry),
      slookup (supsert m k v) j = slookup m j := by
  intro m
  have hkj : k ≠ j := fun h => hne h.symm
  induction m with
  | nil => simp [supsert, slookup, hkj]
  | cons x rest ih =>
    cases x with
    | mk k' v' =>
      by_cases hk : k' = k
      · subst hk
        simp [supsert, slookup, hkj]
      · simp [supsert, hk, slookup, ih]

/-- The direct flat-format tick message for symbol `s` at price `l`. -/
def tickMsg (s : String) (l : ℚ) : JMsg :=
  { type_tag := none, status := none,
    flat := ⟨some s, some l, none, none, none, none⟩, data := none }

/-- A sequence of inbound ticks, fed through `_on_message` in order. -/
def processTicks (lk : Nat → Option Strategy) (now : Int) :
    ServiceState → List (String × ℚ) → ServiceState
  | st, [] => st
  | st, (s, l) :: rest =>
    processTicks lk now (on_message lk now st (some (tickMsg s l))) rest

theorem on_message_tick (lk : Nat → Option Strategy) (now : Int)
    (st : ServiceState) (s : String) (l : ℚ) (hs : s ≠ "") (hl : l ≠ 0) :
    on_message lk now st (some (tickMsg s l)) =
      risk_step lk now s l (save_prices now
        { st with latest_prices :=
                    supsert st.latest_prices s
                      ⟨l, now, none, none, none, none⟩ }) := by
  unfold on_message tickMsg
  dsimp only
  rw [if_neg (by decide), if_neg (by decide), if_neg (by decide),
    if_pos (by exact Option.some_ne_none l), if_pos ⟨by simpa [truthyS] using hs,
      by simpa [truthyQ] using hl⟩]
  rfl

theorem processTicks_preserves (lk : Nat → Option Strategy) (now : Int) :
    ∀ (ticks : List (String × ℚ)) (st : ServiceState) (j : String),
      (∀ p ∈ ticks, p.1 ≠ "" ∧ p.2 ≠ (0 : ℚ)) → j ∉ ticks.map Prod.fst →
      slookup (processTicks lk now st ticks).latest_prices j =
        slookup st.latest_prices j ∧
      (processTicks lk now st ticks).subscriptions = st.subscriptions := by
  intro ticks
  induction ticks with
  | nil => intro st j _ _; exact ⟨rfl, rfl⟩
  | cons q rest ih =>
    intro st j hgood hnot
    cases q with
    | mk s l =>
      obtain ⟨hs, hl⟩ := hgood (s, l) (by simp)
      have hjs : j ≠ s := fun hc => hnot (by simp [hc])
      have hrest : j ∉ rest.map Prod.fst := fun hc => hnot (by simp [hc])
      unfold processTicks
      rw [on_message_tick lk now st s l hs hl]
      obtain ⟨h1, h2⟩ := ih (risk_step lk now s l (save_prices now
        { st with latest_prices :=
                    supsert st.latest_prices s
                      ⟨l, now, none, none, none, none⟩ })) j
        (fun p hp => hgood p (by simp [hp])) hrest
      refine ⟨?_, by simpa [risk_step, save_prices] using h2⟩
      rw [h1]
      show slookup (supsert st.latest_prices s
        ⟨l, now, none, none, none, none⟩) j = slookup st.latest_prices j
      exact slookup_supsert_ne s j _ hjs st.latest_prices

theorem processTicks_snapshot (lk : Nat → Option Strategy) (now : Int) :
    ∀ (ticks : List (String × ℚ)) (st : ServiceState),
      (∀ p ∈ ticks, p.1 ≠ "" ∧ p.2 ≠ (0 : ℚ)) →
      (st.latest_prices.map Prod.fst ++ ticks.map Prod.fst).Nodup →
      (processTicks lk now st ticks).latest_prices.map Prod.fst =
        st.latest_prices.map Prod.fst ++ ticks.map Prod.fst ∧
      ∀ q ∈ ticks,
        slookup (processTicks lk now st ticks).latest_prices q.1 =
          some ⟨q.2, now, none, none, none, none⟩ := by
  intro ticks
  induction ticks with
  | nil =>
    intro st _ _
    exact ⟨by simp [processTicks], by simp⟩
  | cons q rest ih =>
    intro st hgood hnodup
    cases q with
    | mk s l =>
      obtain ⟨hs, hl⟩ := hgood (s, l) (by simp)
      have hnodup' :
          (st.latest_prices.map Prod.fst ++ (s :: rest.map Prod.fst)).Nodup := by
        simpa using hnodup
      rw [List.nodup_append] at hnodup'
      obtain ⟨hA, hB, hdisj⟩ := hnodup'
      have hsA : s ∉ st.latest_prices.map Prod.fst := by
        intro hc
        exact hdisj hc (by simp)
      have hsrest : s ∉ rest.map Prod.fst := by
        have := List.nodup_cons.mp hB
        exact this.1
      unfold processTicks
      rw [on_message_tick lk now st s l hs hl]
      have hkeys :
          (risk_step lk now s l (save_prices now
            { st with latest_prices :=
                        supsert st.latest_prices s
                          ⟨l, now, none, none, none, none⟩ })).latest_prices =
            supsert st.latest_prices s ⟨l, now, none, none, none, none⟩ := rfl
      have hkeys2 := supsert_keys_notmem s
        (⟨l, now, none, none, none, none⟩ : PriceEntry) st.latest_prices hsA
      have hnodup2 :
          ((risk_step lk now s l (save_prices now
            { st with latest_prices :=
                        supsert st.latest_prices s
                          ⟨l, now, none, none, none, none⟩ })).latest_prices.map
              Prod.fst ++ rest.map Prod.fst).Nodup := by
        rw [hkeys, hkeys2, List.append_assoc]
        simpa using hnodup
      obtain ⟨ihkeys, ihlook⟩ := ih (risk_step lk now s l (save_prices now
        { st with latest_prices :=
                    supsert st.latest_prices s
                      ⟨l, now, none, none, none, none⟩ }))
        (fun p hp => hgood p (by simp [hp])) hnodup2
      constructor
      · rw [ihkeys, hkeys, hkeys2, List.append_assoc]
        simp
      · intro q hq
        rcases List.mem_cons.mp hq with hq | hq
        · subst hq
          have hpres := processTicks_preserves lk now rest
            (risk_step lk now s l (save_prices now
              { st with latest_prices :=
                          supsert st.latest_prices s
                            ⟨l, now, none, none, none, none⟩ })) s
            (fun p hp => hgood p (by simp [hp])) hsrest
          rw [hpres.1, hkeys]
          exact slookup_supsert_self s _ st.latest_prices
        · exact ihlook q hq

theorem on_message_publishes (lk : Nat → Option Strategy) (now : Int)
    (st : ServiceState) (m : JMsg) (h : acceptedTick m) :
    (on_message lk now st (some m)).sharedDoc =
      some ⟨(on_message lk now st (some m)).latest_prices, now,
            (on_message lk now st (some m)).subscriptions⟩ := by
  unfold on_message
  dsimp only
  rcases h with ⟨h1, hsym, hltp⟩ | ⟨hna, hns, hnm, hltpne, hsym, hltp⟩
  · have hna : ¬m.type_tag = some "auth" := by rw [h1]; decide
    have hns : ¬m.type_tag = some "subscribe" := by rw [h1]; decide
    unfold msgSymbol at hsym
    rw [if_pos h1] at hsym
    unfold msgLtp at hltp
    rw [if_pos h1] at hltp
    rw [if_neg hna, if_neg hns, if_pos h1, if_pos ⟨hsym, hltp⟩]
    rfl
  · rw [if_neg hna, if_neg hns, if_neg hnm, if_pos hltpne,
      if_pos ⟨hsym, hltp⟩]
    rfl

/-- A mid-session state: authenticated, one subscription `NSE:NIFTY`. -/
def c8State : ServiceState :=
  { authenticated := true, subscriptions := ["NSE:NIFTY"],
    latest_prices := [], sharedDoc := none, positions := [], events := [] }

/-- A `market_data` message for NIFTY on NSE (symbol at top level, tick
fields in `data`). -/
def c8Msg : JMsg :=
  { type_tag := some "market_data", status := none,
    flat := ⟨some "NIFTY", none, none, none, none, none⟩,
    data := some ⟨none, some 101, some 100, some 102, some 99, some 5⟩ }

/-- Counterexample for C8 as stated: the published document's prices map is
keyed by the bare symbol (`latest_prices[symbol] = ...` in the source), so
a NIFTY tick on NSE yields the key `NIFTY`, not `NSE:NIFTY` as the claim
says — even while the subscription set records `NSE:NIFTY`. -/
theorem C8_bare_symbol_counterexample :
    ((on_message (fun _ => none) 10 c8State (some c8Msg)).sharedDoc.map
      (fun doc => doc.prices.map Prod.fst)) = some ["NIFTY"] ∧
    ((on_message (fun _ => none) 10 c8State (some c8Msg)).sharedDoc.map
      (fun doc => doc.prices.map Prod.fst)) ≠ some ["NSE:NIFTY"] := by
  have h0 : on_message (fun _ => none) 10 c8State (some c8Msg) =
      { authenticated := true, subscriptions := ["NSE:NIFTY"],
        latest_prices :=
          [("NIFTY", ⟨101, 10, some 100, some 102, some 99, some 5⟩)],
        sharedDoc := some ⟨[("NIFTY",
          ⟨101, 10, some 100, some 102, some 99, some 5⟩)], 10,
          ["NSE:NIFTY"]⟩,
        positions := [], events := [] } := by
    unfold on_message c8Msg c8State
    dsimp only
    rw [if_neg (by decide), if_neg (by decide), if_pos rfl,
      if_pos ⟨by decide, by decide⟩]
    rfl
  rw [h0]
  exact ⟨rfl, by decide⟩

/-- C8 (amended): every accepted tick update publishes the full snapshot —
the shared document after the update holds exactly the current price map
(keyed by the bare symbol, not `EXCH:SYM`), the fresh `updated_at`
timestamp and the current subscription list; and processing N ticks for N
distinct truthy symbols with non-zero prices from a fresh state yields a
price map with exactly those N keys, each mapped to its tick's value. -/
theorem C8_publish_snapshot :
    (∀ (lk : Nat → Option Strategy) (now : Int) (st : ServiceState) (m : JMsg),
      acceptedTick m →
      (on_message lk now st (some m)).sharedDoc =
        some ⟨(on_message lk now st (some m)).latest_prices, now,
              (on_message lk now st (some m)).subscriptions⟩) ∧
    (∀ (lk : Nat → Option Strategy) (now : Int) (ticks : List (String × ℚ)),
      (∀ p ∈ ticks, p.1 ≠ "" ∧ p.2 ≠ (0 : ℚ)) → (ticks.map Prod.fst).Nodup →
      (processTicks lk now emptyState ticks).latest_prices.map Prod.fst =
        ticks.map Prod.fst ∧
      ∀ q ∈ ticks,
        slookup (processTicks lk now emptyState ticks).latest_prices q.1 =
          some ⟨q.2, now, none, none, none, none⟩) := by
  constructor
  · exact fun lk now st m h => on_message_publishes lk now st m h
  · intro lk now ticks hgood hnodup
    have h := processTicks_snapshot lk now ticks emptyState hgood
      (by simpa [emptyState] using hnodup)
    simpa [emptyState] using h

/-- Witness for C8: the NIFTY market-data message publishes the snapshot,
and two ticks to distinct symbols A and B leave exactly the two keys with
their prices. -/
theorem C8_publish_snapshot_witness :
    (on_message (fun _ => none) 10 c8State (some c8Msg)).sharedDoc =
      some ⟨(on_message (fun _ => none) 10 c8State (some c8Msg)).latest_prices,
            10,
            (on_message (fun _ => none) 10 c8State (some c8Msg)).subscriptions⟩ ∧
    (processTicks (fun _ => none) 3 emptyState
      [("A", 5), ("B", 7)]).latest_prices.map Prod.fst = ["A", "B"] ∧
    slookup (processTicks (fun _ => none) 3 emptyState
      [("A", 5), ("B", 7)]).latest_prices "A" =
        some ⟨5, 3, none, none, none, none⟩ :=
  ⟨C8_publish_snapshot.1 (fun _ => none) 10 c8State c8Msg
      (Or.inl ⟨rfl, by decide, by decide⟩),
   (C8_publish_snapshot.2 (fun _ => none) 3 [("A", 5), ("B", 7)]
      (by decide) (by decide)).1,
   (C8_publish_snapshot.2 (fun _ => none) 3 [("A", 5), ("B", 7)]
      (by decide) (by decide)).2 ("A", 5) (by simp)⟩

end AlgoMirror
